import Mathlib

/-!
Verification of the fix-orchestration engine of the frogbot repository.

Go strings are modelled as lists of characters (`GoStr`); Go `nil`-able
errors as `Option GoError`; Go panics (out-of-bounds string indexing) as
`Option.none` results; external Git/VCS side effects as an oracle
environment plus an explicit effect trace.
-/

namespace Frogbot

/-- A Go string, modelled as its list of characters. -/
abbrev GoStr := List Char

/-- Convenience embedding of a Lean string literal into `GoStr`. -/
def str (s : String) : GoStr := s.data

/-- Model of `strings.Split(s, sep)` for a one-character separator: splits at every
occurrence of the separator; never returns the empty list (splitting the
empty string yields one empty field, as in Go). -/
def splitOnChar (sep : Char) : GoStr → List GoStr
  | [] => [[]]
  | c :: rest =>
    match splitOnChar sep rest with
    | [] => [[]]
    | h :: t => if c = sep then [] :: h :: t else (c :: h) :: t

/-- Model of `strings.Trim(s, cutset)` for a one-character cutset: removes all
leading and trailing occurrences of the character. -/
def trimGo (cut : Char) (s : GoStr) : GoStr :=
  ((s.dropWhile (· = cut)).reverse.dropWhile (· = cut)).reverse

/-- Go whitespace test used by `strings.TrimSpace` (restricted to the ASCII
whitespace that can occur in version tokens). -/
def isSpaceGo (c : Char) : Bool :=
  c = ' ' ∨ c = '\t' ∨ c = '\n' ∨ c = '\r'

/-- Model of `strings.TrimSpace`. -/
def trimSpaces (s : GoStr) : GoStr :=
  ((s.dropWhile isSpaceGo).reverse.dropWhile isSpaceGo).reverse

/-- Model of `strings.TrimPrefix(s, "v")`: drops one leading `v`, if present. -/
def trimPrefixV (s : GoStr) : GoStr :=
  match s with
  | c :: rest => if c = 'v' then rest else c :: rest
  | [] => []

/-- Decimal value of the leading digit run of a version token. -/
def digitsVal : GoStr → Nat :=
  go 0
where
  go (acc : Nat) : GoStr → Nat
    | c :: rest => if c.isDigit then go (acc * 10 + (c.toNat - 48)) rest else acc
    | [] => acc

/-- Modelled from the spec: the version ordering of the external
`gofrog/version` dependency (not part of this repository), which the spec
describes only as deciding whether one version string is strictly greater
than another. Dot-separated tokens are space-trimmed and compared
numerically left to right; tokens missing from the shorter version count
as zero. -/
def verTokens (s : GoStr) : List Nat :=
  (splitOnChar '.' s).map (fun t => digitsVal (trimSpaces t))

/-- Is every remaining token zero (the padding rule for versions of
different lengths)? -/
def allZeroTokens (l : List Nat) : Bool := l.all (· = 0)

/-- Compare two token lists; `.lt` means the first version is older. -/
def cmpTok : List Nat → List Nat → Ordering
  | [], [] => .eq
  | [], b :: bs => if allZeroTokens (b :: bs) then .eq else .lt
  | a :: as, [] => if allZeroTokens (a :: as) then .eq else .gt
  | a :: as, b :: bs =>
    if a < b then .lt else if b < a then .gt else cmpTok as bs

/-- Modelled from the spec: comparison of two version strings (see
`verTokens`). `.lt` means the second string denotes the strictly greater
version. -/
def versionCmp (a b : GoStr) : Ordering := cmpTok (verTokens a) (verTokens b)

/-- Whether `a` denotes a strictly smaller version than `b`; this is
`version.NewVersion(a).Compare(b) > 0` of the gofrog dependency. -/
def versionLtB (a b : GoStr) : Bool := versionCmp a b == .lt

/-- Model of `parseVersionChangeString` of `scanrepository`: takes the text before
the first comma of the interval-notation candidate, panics (`none`) when
that text is empty (the Go code indexes its first byte), yields the empty
string when it starts with `(` (open lower bound, unsupported), and
otherwise strips enclosing `[` and `]` characters. -/
def parseVersionChangeString (fixVersion : GoStr) : Option GoStr :=
  match (splitOnChar ',' fixVersion).headD [] with
  | [] => none
  | c :: rest =>
    if c = '(' then some []
    else some (trimGo ']' (trimGo '[' (c :: rest)))

/-- The loop of `getMinimalFixVersion`: first candidate whose parsed
version strictly exceeds the (already `v`-stripped) current version wins;
a panic inside `parseVersionChangeString` propagates as `none`. -/
def getMinimalFixVersionLoop (currVersion : GoStr) : List GoStr → Option GoStr
  | [] => some []
  | fixVersion :: rest =>
    match parseVersionChangeString fixVersion with
    | none => none
    | some fixVersionCandidate =>
      if versionLtB currVersion fixVersionCandidate then some fixVersionCandidate
      else getMinimalFixVersionLoop currVersion rest

/-- Model of `getMinimalFixVersion` of `scanrepository`: trims a leading `v` from
the impacted version and returns the first candidate fix version (after
interval parsing) that is strictly greater; the empty string when no
candidate qualifies; `none` models the index-out-of-range panic on a
malformed candidate. -/
def getMinimalFixVersion (impactedPackageVersion : GoStr) (fixVersions : List GoStr) :
    Option GoStr :=
  getMinimalFixVersionLoop (trimPrefixV impactedPackageVersion) fixVersions

/-! ## Data model: scan findings and fix candidates -/

/-- One node of an impact path (`formats.ComponentRow`). -/
structure ComponentRow where
  Name : GoStr
  Version : GoStr
deriving DecidableEq

/-- A CVE entry of a finding (`formats.CveRow`, restricted to the `Id`
field that the fix engine reads). -/
structure CveRow where
  Id : GoStr
deriving DecidableEq

/-- A scanner finding (`formats.VulnerabilityOrViolationRow`), restricted
to the fields the fix-orchestration engine reads or writes. -/
structure VulnerabilityOrViolationRow where
  Summary : GoStr
  Severity : GoStr
  ImpactedDependencyName : GoStr
  ImpactedDependencyVersion : GoStr
  FixedVersions : List GoStr
  Cves : List CveRow
  IssueId : GoStr
  Technology : GoStr
  ImpactPaths : List (List ComponentRow)
deriving DecidableEq

/-- Model of `utils.VulnerabilityDetails`: a finding chosen for remediation, with
its selected fix version. The embedded `VulnerabilityOrViolationRow` of
the Go struct is the `row` field. -/
structure VulnerabilityDetails where
  row : VulnerabilityOrViolationRow
  SuggestedFixedVersion : GoStr
  IsDirectDependency : Bool
  Cves : List GoStr
deriving DecidableEq

/-- Model of `utils.NewVulnerabilityDetails`: copies the row, stores the fix
version and accumulates the CVE ids (`SetCves`). -/
def NewVulnerabilityDetails (vulnerability : VulnerabilityOrViolationRow) (fixVersion : GoStr) :
    VulnerabilityDetails :=
  { row := vulnerability
    SuggestedFixedVersion := fixVersion
    IsDirectDependency := false
    Cves := vulnerability.Cves.map (·.Id) }

/-- Model of `VulnerabilityDetails.SetIsDirectDependency`. -/
def SetIsDirectDependency (vd : VulnerabilityDetails) (isDirectDependency : Bool) :
    VulnerabilityDetails :=
  { vd with IsDirectDependency := isDirectDependency }

/-- Model of `VulnerabilityDetails.UpdateFixVersionIfMax`: replaces the stored fix
version when the incoming one is strictly greater (or when nothing is
stored yet); otherwise, ties included, keeps the existing value. -/
def UpdateFixVersionIfMax (vd : VulnerabilityDetails) (fixVersion : GoStr) :
    VulnerabilityDetails :=
  if vd.SuggestedFixedVersion = [] ∨ versionLtB vd.SuggestedFixedVersion fixVersion then
    { vd with SuggestedFixedVersion := fixVersion }
  else vd

/-- Model of `utils.ExtractVulnerabilitiesDetailsToRows`. -/
def ExtractVulnerabilitiesDetailsToRows (vulnDetails : List VulnerabilityDetails) :
    List VulnerabilityOrViolationRow :=
  vulnDetails.map (·.row)

/-- Model of `utils.IsDirectDependency`: an empty impact path is a hard error; a
first path of fewer than three nodes means a direct dependency. -/
def IsDirectDependency (impactPath : List (List ComponentRow)) : Except GoStr Bool :=
  if impactPath = [] then .error (str ("invalid impact path provided"))
  else .ok (decide ((impactPath.headD []).length < 3))

/-! ## The vulnerabilities map -/

/-- The Go `map[string]*utils.VulnerabilityDetails`, keyed by impacted
package name. -/
def VulnMap := GoStr → Option VulnerabilityDetails

/-- The empty vulnerabilities map. -/
def emptyVulnMap : VulnMap := fun _ => none

/-- Store (insert or overwrite) a value under a key. -/
def mapInsert (m : VulnMap) (k : GoStr) (v : VulnerabilityDetails) : VulnMap :=
  fun k2 => if k2 = k then some v else m k2

/-- Outcome of `addVulnerabilityToFixVersionsMap`: a Go panic (out of
bounds inside version parsing), a returned error, or success carrying the
updated `projectTech` slice, the (possibly mutated) finding and the
updated map. -/
inductive AddResult where
  | panics
  | fails (msg : GoStr)
  | ok (projectTech : List GoStr) (vulnerability : VulnerabilityOrViolationRow) (m : VulnMap)

/-- The final mutation of `addVulnerabilityToFixVersionsMap`: the
finding's fix-version list is overwritten with the singleton of the fix
version now stored in the map for its package. -/
def setFixedVersionsFromMap (vulnerability : VulnerabilityOrViolationRow) (m : VulnMap) :
    VulnerabilityOrViolationRow :=
  { vulnerability with
      FixedVersions := [((m vulnerability.ImpactedDependencyName).map
        (·.SuggestedFixedVersion)).getD []] }

/-- Model of `scanrepository.addVulnerabilityToFixVersionsMap`. Findings without
candidate fix versions, or without a qualifying minimal fix version, are
skipped unchanged. A first finding for a package inserts a new
`VulnerabilityDetails` (after the direct-dependency check); a repeated
finding updates the stored fix version via `UpdateFixVersionIfMax`. -/
def addVulnerabilityToFixVersionsMap (projectTech : List GoStr)
    (vulnerability : VulnerabilityOrViolationRow) (vulnerabilitiesMap : VulnMap) : AddResult :=
  if vulnerability.FixedVersions = [] then
    .ok projectTech vulnerability vulnerabilitiesMap
  else
    let projectTech2 :=
      if projectTech = [] then [vulnerability.Technology] else projectTech
    match getMinimalFixVersion vulnerability.ImpactedDependencyVersion
        vulnerability.FixedVersions with
    | none => .panics
    | some vulnFixVersion =>
      if vulnFixVersion = [] then .ok projectTech2 vulnerability vulnerabilitiesMap
      else
        match vulnerabilitiesMap vulnerability.ImpactedDependencyName with
        | some vulnDetails =>
          let m2 := mapInsert vulnerabilitiesMap vulnerability.ImpactedDependencyName
            (UpdateFixVersionIfMax vulnDetails vulnFixVersion)
          .ok projectTech2 (setFixedVersionsFromMap vulnerability m2) m2
        | none =>
          match IsDirectDependency vulnerability.ImpactPaths with
          | .error e => .fails e
          | .ok isDirectDependency =>
            let m2 := mapInsert vulnerabilitiesMap vulnerability.ImpactedDependencyName
              (SetIsDirectDependency (NewVulnerabilityDetails vulnerability vulnFixVersion)
                isDirectDependency)
            .ok projectTech2 (setFixedVersionsFromMap vulnerability m2) m2

/-- Outcome of building a whole vulnerabilities map. -/
inductive BuildResult where
  | panics
  | fails (msg : GoStr)
  | ok (projectTech : List GoStr) (m : VulnMap)

/-- The loop of `createVulnerabilitiesMap` over the prepared findings of
one scan: feeds each finding to `addVulnerabilityToFixVersionsMap`,
aborting on the first panic or error. -/
def createVulnerabilitiesMapLoop (projectTech : List GoStr) (m : VulnMap) :
    List VulnerabilityOrViolationRow → BuildResult
  | [] => .ok projectTech m
  | v :: rest =>
    match addVulnerabilityToFixVersionsMap projectTech v m with
    | .panics => .panics
    | .fails e => .fails e
    | .ok tech2 _ m2 => createVulnerabilitiesMapLoop tech2 m2 rest

/-- The fix version finally stored for `key` after processing `rows` into
an initially empty map (`none` when construction failed or the package is
absent). -/
def finalSuggestedVersion (rows : List VulnerabilityOrViolationRow) (key : GoStr) :
    Option GoStr :=
  match createVulnerabilitiesMapLoop [] emptyVulnMap rows with
  | .ok _ m => (m key).map (·.SuggestedFixedVersion)
  | _ => none

/-! ## Scan checksum -/

/-- The sixteen lowercase hexadecimal digits. -/
def hexAlphabet : GoStr := str ("0123456789abcdef")

/-- The hexadecimal digit of a value below sixteen. -/
def hexDigitChar (n : Nat) : Char := hexAlphabet.getD n '0'

/-- Model of `hex.EncodeToString`: two lowercase hexadecimal digits per byte. -/
def hexEncode : List Nat → GoStr
  | [] => []
  | b :: rest => hexDigitChar (b / 16) :: hexDigitChar (b % 16) :: hexEncode rest

/-- One byte of the digest stand-in: a polynomial fold of the input
seeded by the byte's position. -/
def digestByte (i : Nat) (s : GoStr) : Nat :=
  (s.foldl (fun acc c => (acc * 131 + c.toNat + 17) % 18446744073709551616) (i + 1)) % 256

/-- Modelled from the spec: the sixteen-byte digest of the external
`crypto.MD5` primitive (Go standard library, not part of this
repository); the spec fixes only that it is a function of the input text
yielding a 32-character hexadecimal string, which this deterministic
stand-in satisfies. -/
def digest16 (s : GoStr) : List Nat := (List.range 16).map (fun i => digestByte i s)

/-- The hex-encoded digest: a 32-character lowercase hexadecimal string,
a deterministic function of the input. -/
def md5Hex (s : GoStr) : GoStr := hexEncode (digest16 s)

/-- Modelled from the spec: `xrayutils.GetUniqueKey` of the external
jfrog-cli-security dependency, as used by `utils.GetVulnerabiltiesUniqueID`
— a string key identifying a finding by impacted package name and
version, issue id, and whether fix versions exist. -/
def GetVulnerabiltiesUniqueID (vulnerability : VulnerabilityOrViolationRow) : GoStr :=
  vulnerability.ImpactedDependencyName ++ ':' ::
    vulnerability.ImpactedDependencyVersion ++ ':' ::
      vulnerability.IssueId ++ ':' ::
        (if vulnerability.FixedVersions.length > 0 then str ("true") else str ("false"))

/-- Go string comparison: lexicographic by character code. -/
def lexLeB : GoStr → GoStr → Bool
  | [], _ => true
  | _ :: _, [] => false
  | a :: as, b :: bs =>
    if a.toNat < b.toNat then true
    else if b.toNat < a.toNat then false
    else lexLeB as bs

/-- The ordering relation behind `sort.Strings`. -/
def strLe (a b : GoStr) : Prop := lexLeB a b = true

instance : DecidableRel strLe := fun a b => instDecidableEqBool (lexLeB a b) true

/-- Model of `sort.Strings`: the keys in ascending lexicographic order. -/
def sortStrings (keys : List GoStr) : List GoStr :=
  keys.insertionSort strLe

/-- The text fed to the digest by `utils.VulnerabilityDetailsToMD5Hash`:
for each sorted key, `fmt.Fprint(hash, key, value)` writes the decimal
index followed by the key string. -/
def buildHashInput : Nat → List GoStr → GoStr
  | _, [] => []
  | i, k :: rest => (Nat.repr i).data ++ k ++ buildHashInput (i + 1) rest

/-- Model of `utils.VulnerabilityDetailsToMD5Hash`: hex digest over the sorted
unique-key strings of the given findings. -/
def VulnerabilityDetailsToMD5Hash (vulnerabilities : List VulnerabilityOrViolationRow) :
    GoStr :=
  md5Hex (buildHashInput 0 (sortStrings (vulnerabilities.map GetVulnerabiltiesUniqueID)))

/-! ## Checksum extraction from a pull-request body -/

/-- The `\w` class of the Go regexp `Checksum: (\w+)`. -/
def isWordChar (c : Char) : Bool := c.isAlphanum ∨ c = '_'

/-- The literal part of the checksum marker pattern. -/
def checksumMarker : GoStr := str ("Checksum: ")

/-- Leftmost match of the regexp `Checksum: (\w+)`: the first position
where the literal marker is followed by at least one word character; the
captured group is the maximal word-character run there. -/
def findChecksum : GoStr → Option GoStr
  | [] => none
  | c :: rest =>
    if checksumMarker.isPrefixOf (c :: rest) then
      match ((c :: rest).drop checksumMarker.length).takeWhile isWordChar with
      | [] => findChecksum rest
      | w :: ws => some (w :: ws)
    else findChecksum rest

/-- Model of `scanrepository.getRemoteBranchScanHash`: the captured checksum, or
the empty string when the pattern does not occur in the body. -/
def getRemoteBranchScanHash (prBody : GoStr) : GoStr :=
  (findChecksum prBody).getD []

/-! ## Go errors -/

/-- A Go error value as the fix engine sees it: the typed
`utils.ErrUnsupportedFix` (with its package name, fix version and
indirect/build-tool flavour), a plain message, a `fmt.Errorf`-with-`%s`
flattening (loses the wrapped error's type), a `%w` wrapping (keeps it),
or an `errors.Join` of two errors. -/
inductive GoError where
  | unsupportedFix (packageName fixedVersion : GoStr) (indirect : Bool)
  | msg (s : GoStr)
  | textWrap (tag : GoStr) (inner : GoError)
  | wrapErr (tag : GoStr) (inner : GoError)
  | join (e1 e2 : GoError)
deriving DecidableEq

/-- Model of `errors.As(err, &errUnsupportedFix)`: does the error chain, unwrapped
through `%w` wrappings and `errors.Join` trees, contain an
`ErrUnsupportedFix`? `%s`-formatted wrappings flatten to text and are not
traversed. -/
def errorsAsUnsupported : GoError → Bool
  | .unsupportedFix .. => true
  | .msg _ => false
  | .textWrap _ _ => false
  | .wrapErr _ inner => errorsAsUnsupported inner
  | .join e1 e2 => errorsAsUnsupported e1 || errorsAsUnsupported e2

/-- Model of `scanrepository.handleUpdatePackageErrors`: an error that is or wraps
`ErrUnsupportedFix` is logged at debug level and swallowed (`none`); any
other error is returned unchanged. -/
def handleUpdatePackageErrors (err : GoError) : Option GoError :=
  if errorsAsUnsupported err then none else some err

/-- Model of `errors.Join` on nilable errors: `nil` operands are dropped. -/
def joinOpt : Option GoError → Option GoError → Option GoError
  | none, e2 => e2
  | some e1, none => some e1
  | some e1, some e2 => some (.join e1 e2)

/-! ## Git and VCS effects -/

/-- The externally visible Git/VCS operations performed by a run; effects
are recorded when the corresponding operation succeeds (`logAttempt` and
`updateDependency` and `checkout` record the attempt itself). -/
inductive GitEffect where
  | logAttempt (packageName impactedVersion : GoStr)
  | createBranch (name : GoStr)
  | updateDependency (packageName fixVersion : GoStr)
  | commitAll
  | push (force : Bool) (branchName : GoStr)
  | createPullRequest (sourceBranch : GoStr)
  | updatePullRequest (prId : Int)
  | checkout (branchName : GoStr)
deriving DecidableEq

/-- An open pull request as returned by the VCS client
(`vcsclient.PullRequestInfo`, restricted to the fields read here). -/
structure PullRequestInfo where
  prId : Int
  body : GoStr
  sourceName : GoStr
  targetName : GoStr
deriving DecidableEq

/-- The oracle environment for one run: the base branch, the remote state
and the outcome of every external operation the engine may attempt.
`none` means the operation succeeds; `some s` is its error text. -/
structure FixEnv where
  baseBranch : GoStr
  remoteBranches : List GoStr
  branchListErr : Option GoStr
  createBranchErr : GoStr → Option GoStr
  updateDependencyResult : GoStr → GoStr → Option GoError
  worktreeCleanAfterFix : GoStr → Except GoStr Bool
  commitErr : GoStr → Option GoStr
  pushErr : GoStr → Option GoStr
  createPullRequestErr : GoStr → Option GoStr
  updatePullRequestErr : Int → Option GoStr
  checkoutErr : GoStr → Option GoStr

/-- Model of `GitManager.BranchExistsInRemote` against the oracle remote state. -/
def branchExistsInRemote (env : FixEnv) (branchName : GoStr) : Except GoStr Bool :=
  match env.branchListErr with
  | some e => .error e
  | none => .ok (decide (branchName ∈ env.remoteBranches))

/-- Model of `GitManager.GenerateFixBranchName`. Modelled from the spec for the
hash part (the repository's current `utils/git.go` is not in the sources;
its older revision and the tests fix the shape): a deterministic name
from base branch, package (colons replaced) and fix version, suffixed
with a content hash of those inputs. -/
def generateFixBranchName (branch impactedPackage fixVersion : GoStr) : GoStr :=
  str ("frogbot-") ++ impactedPackage.map (fun c => if c = ':' then '_' else c) ++
    str ("-") ++ md5Hex (str ("frogbot") ++ branch ++ impactedPackage ++ fixVersion)

/-- The message of `openFixingPullRequest` when the working tree shows no
change after the handler ran. -/
def noChangesMsg (packageName : GoStr) : GoStr :=
  str ("there were no changes to commit after fixing the package ") ++ packageName

/-- Model of `scanrepository.openFixingPullRequest`: commit everything, push the
fix branch (non-forced) and open a pull request against the base branch;
a clean working tree is an error. -/
def openFixingPullRequest (env : FixEnv) (fixBranchName : GoStr)
    (vulnDetails : VulnerabilityDetails) : Option GoError × List GitEffect :=
  match env.worktreeCleanAfterFix vulnDetails.row.ImpactedDependencyName with
  | .error e => (some (.msg e), [])
  | .ok true => (some (.msg (noChangesMsg vulnDetails.row.ImpactedDependencyName)), [])
  | .ok false =>
    match env.commitErr fixBranchName with
    | some e => (some (.msg e), [])
    | none =>
      match env.pushErr fixBranchName with
      | some e => (some (.msg e), [.commitAll])
      | none =>
        match env.createPullRequestErr fixBranchName with
        | some e => (some (.msg e), [.commitAll, .push false fixBranchName])
        | none =>
          (none, [.commitAll, .push false fixBranchName, .createPullRequest fixBranchName])

/-- Model of `scanrepository.fixSinglePackageAndCreatePR`: derive the deterministic
fix-branch name; skip (no error, no further action) when that branch
already exists on the remote; otherwise create the branch (the clean and
dirty worktree paths both create and check it out), run the package
handler and open the fixing pull request. A failure of
`openFixingPullRequest` is wrapped as text. -/
def fixSinglePackageAndCreatePR (env : FixEnv) (vulnDetails : VulnerabilityDetails) :
    Option GoError × List GitEffect :=
  let packageName := vulnDetails.row.ImpactedDependencyName
  let fixVersion := vulnDetails.SuggestedFixedVersion
  let logEff := GitEffect.logAttempt packageName vulnDetails.row.ImpactedDependencyVersion
  let fixBranchName := generateFixBranchName env.baseBranch packageName fixVersion
  match branchExistsInRemote env fixBranchName with
  | .error e => (some (.msg e), [logEff])
  | .ok true => (none, [logEff])
  | .ok false =>
    match env.createBranchErr fixBranchName with
    | some e => (some (.msg e), [logEff])
    | none =>
      match env.updateDependencyResult packageName fixVersion with
      | some e =>
        (some e, [logEff, .createBranch fixBranchName, .updateDependency packageName fixVersion])
      | none =>
        match openFixingPullRequest env fixBranchName vulnDetails with
        | (some e, effs) =>
          (some (.textWrap (str ("failed while creating a fixing pull request")) e),
            [logEff, .createBranch fixBranchName, .updateDependency packageName fixVersion] ++ effs)
        | (none, effs) =>
          (none,
            [logEff, .createBranch fixBranchName, .updateDependency packageName fixVersion] ++ effs)

/-- Model of `scanrepository.fixProjectVulnerabilities`: fix every package in its
own branch and pull request; a package's failure is recorded (after
`handleUpdatePackageErrors`) and the loop continues; after every package
the base branch is checked out again, and only a checkout failure aborts
the loop. -/
def fixProjectVulnerabilities (env : FixEnv) :
    List VulnerabilityDetails → Option GoError × List GitEffect
  | [] => (none, [])
  | vd :: rest =>
    let (e, effs) := fixSinglePackageAndCreatePR env vd
    let errAcc := e.bind handleUpdatePackageErrors
    match env.checkoutErr env.baseBranch with
    | some ce =>
      (joinOpt errAcc (handleUpdatePackageErrors (.msg ce)), effs ++ [.checkout env.baseBranch])
    | none =>
      let (restErr, restEffs) := fixProjectVulnerabilities env rest
      (joinOpt errAcc restErr, effs ++ [.checkout env.baseBranch] ++ restEffs)

/-! ## Aggregated mode -/

/-- Model of `scanrepository.fixMultiplePackages`: run every package's handler in
the shared aggregated branch; failures are handled (unsupported fixes are
swallowed), joined and the loop continues; the successfully fixed
packages are collected in order. -/
def fixMultiplePackages (env : FixEnv) :
    List VulnerabilityDetails → List VulnerabilityDetails × Option GoError × List GitEffect
  | [] => ([], none, [])
  | vd :: rest =>
    let packageName := vd.row.ImpactedDependencyName
    let headResult := env.updateDependencyResult packageName vd.SuggestedFixedVersion
    let (fixedRest, errRest, effsRest) := fixMultiplePackages env rest
    match headResult with
    | some e =>
      (fixedRest, joinOpt (e |> handleUpdatePackageErrors) errRest,
        .updateDependency packageName vd.SuggestedFixedVersion :: effsRest)
    | none =>
      (vd :: fixedRest, errRest,
        .updateDependency packageName vd.SuggestedFixedVersion :: effsRest)

/-- The per-working-directory loop of `aggregateFixAndOpenPullRequest`:
when a directory's `fixMultiplePackages` reports an error, that
directory's fixes are discarded (the Go loop `continue`s before appending
them) and the error is joined. -/
def collectAggregatedFixes (env : FixEnv) :
    List (GoStr × List VulnerabilityDetails) →
      List VulnerabilityDetails × Option GoError × List GitEffect
  | [] => ([], none, [])
  | (_, vds) :: rest =>
    let (fixed1, e1, effs1) := fixMultiplePackages env vds
    let (fixedRest, errRest, effsRest) := collectAggregatedFixes env rest
    match e1 with
    | some e =>
      (fixedRest,
        joinOpt (some (.textWrap (str ("errors occured while fixing vulnerabilities")) e))
          errRest,
        effs1 ++ effsRest)
    | none => (fixed1 ++ fixedRest, errRest, effs1 ++ effsRest)

/-- Model of `scanrepository.isUpdateRequired`: with no existing pull request an
update is always required; otherwise the digest of the currently fixed
findings is compared with the checksum extracted from the existing pull
request's body. -/
def isUpdateRequired (fixedVulnerabilities : List VulnerabilityDetails)
    (prInfo : Option PullRequestInfo) : Bool :=
  match prInfo with
  | none => true
  | some pr =>
    VulnerabilityDetailsToMD5Hash (ExtractVulnerabilitiesDetailsToRows fixedVulnerabilities)
      ≠ getRemoteBranchScanHash pr.body

/-- Model of `scanrepository.openAggregatedPullRequest`: commit, force-push the
aggregated branch, then create the pull request when none exists or
update the existing one (reopening it) otherwise. -/
def openAggregatedPullRequest (env : FixEnv) (fixBranchName : GoStr)
    (pullRequestInfo : Option PullRequestInfo) : Option GoError × List GitEffect :=
  match env.commitErr fixBranchName with
  | some e => (some (.msg e), [])
  | none =>
    match env.pushErr fixBranchName with
    | some e => (some (.msg e), [.commitAll])
    | none =>
      match pullRequestInfo with
      | none =>
        match env.createPullRequestErr fixBranchName with
        | some e => (some (.msg e), [.commitAll, .push true fixBranchName])
        | none =>
          (none, [.commitAll, .push true fixBranchName, .createPullRequest fixBranchName])
      | some pr =>
        match env.updatePullRequestErr pr.prId with
        | some e => (some (.msg e), [.commitAll, .push true fixBranchName])
        | none =>
          (none, [.commitAll, .push true fixBranchName, .updatePullRequest pr.prId])

/-- Model of `scanrepository.aggregateFixAndOpenPullRequest`: create the aggregated
fix branch (clean and dirty worktree paths both create and check it out),
apply every handler collecting the successful fixes, and decide between
no-op (existing pull request in sync), and force-push plus
create-or-update (only when at least one fix succeeded); afterwards the
base branch is checked out again (not on the in-sync early return). -/
def aggregateFixAndOpenPullRequest (env : FixEnv)
    (vulnerabilitiesMap : List (GoStr × List VulnerabilityDetails))
    (aggregatedFixBranchName : GoStr) (existingPullRequestInfo : Option PullRequestInfo) :
    Option GoError × List GitEffect :=
  match env.createBranchErr aggregatedFixBranchName with
  | some e => (some (.msg e), [])
  | none =>
    let (fixedVulnerabilities, err0, effs0) := collectAggregatedFixes env vulnerabilitiesMap
    let effs := GitEffect.createBranch aggregatedFixBranchName :: effs0
    if isUpdateRequired fixedVulnerabilities existingPullRequestInfo then
      let (e2, effs2) :=
        if fixedVulnerabilities.isEmpty then (none, [])
        else
          match openAggregatedPullRequest env aggregatedFixBranchName existingPullRequestInfo with
          | (some e, es) =>
            (some (.textWrap (str ("failed while creating aggregated pull request")) e), es)
          | (none, es) => (none, es)
      match env.checkoutErr env.baseBranch with
      | some ce =>
        (joinOpt (joinOpt err0 e2) (some (.msg ce)),
          effs ++ effs2 ++ [.checkout env.baseBranch])
      | none => (joinOpt err0 e2, effs ++ effs2 ++ [.checkout env.baseBranch])
    else (err0, effs)

/-! ## Spec-side definitions

These follow the wording of the specification (not the code) and are
compared against the embedded functions. -/

/-- Does candidate `c` qualify against the (already stripped) current
version `cur`: its parsed target version is strictly greater? -/
def qualifiesAgainst (cur c : GoStr) : Bool :=
  match parseVersionChangeString c with
  | some cand => versionLtB cur cand
  | none => false

/-- Does candidate `c` qualify against impacted version `v`: its parsed
target version is strictly greater than `v` with a leading `v` stripped? -/
def qualifiesB (v c : GoStr) : Bool :=
  qualifiesAgainst (trimPrefixV v) c

/-- The claim's reading of `getMinimalFixVersion`: the first candidate of
the list itself whose parsed target version qualifies, or the empty
string. -/
def specFirstQualifyingCandidate (v : GoStr) (cs : List GoStr) : GoStr :=
  (cs.find? (qualifiesB v)).getD []

/-- The parsed target version of the first qualifying candidate, or the
empty string. -/
def specFirstQualifyingParsed (v : GoStr) (cs : List GoStr) : GoStr :=
  match cs.find? (qualifiesB v) with
  | some c => (parseVersionChangeString c).getD []
  | none => []

/-- The claim's reading of `parseVersionChangeString`: empty for an open
lower bound, otherwise the lower-bound endpoint (the text before the
first comma) with enclosing brackets stripped. -/
def specLowerBoundEndpoint (c : GoStr) : GoStr :=
  if c.headD ' ' = '(' then []
  else trimGo ']' (trimGo '[' ((splitOnChar ',' c).headD []))

/-- The claim's maximum rule for repeated findings on one package: the
strictly greater of the two versions, the existing one on ties. -/
def specMaxVersion (existing new : GoStr) : GoStr :=
  match versionCmp existing new with
  | .lt => new
  | _ => existing

/-! ## Basic lemmas about splitting and parsing -/

theorem splitOnChar_ne_nil (sep : Char) (s : GoStr) : splitOnChar sep s ≠ [] := by
  cases s with
  | nil => simp [splitOnChar]
  | cons c rest =>
    simp only [splitOnChar]
    rcases h : splitOnChar sep rest with _ | ⟨h1, t⟩
    · simp
    · by_cases hc : c = sep <;> simp [hc]

theorem splitOnChar_headD_cons (sep c : Char) (rest : GoStr) :
    (splitOnChar sep (c :: rest)).headD [] =
      if c = sep then [] else c :: (splitOnChar sep rest).headD [] := by
  simp only [splitOnChar]
  rcases h : splitOnChar sep rest with _ | ⟨h1, t⟩
  · exact absurd h (splitOnChar_ne_nil sep rest)
  · by_cases hc : c = sep <;> simp [hc]

/-- The panic characterisation: `parseVersionChangeString` panics exactly
when the text before the first comma is empty. -/
theorem parseVersionChangeString_eq_none_iff (c : GoStr) :
    parseVersionChangeString c = none ↔ (splitOnChar ',' c).headD [] = [] := by
  unfold parseVersionChangeString
  rcases h : (splitOnChar ',' c).headD [] with _ | ⟨c0, rest⟩
  · simp
  · by_cases hc : c0 = '(' <;> simp [hc]

/-- The text before the first comma is nonempty exactly when the string
is nonempty and does not start with a comma. -/
theorem splitOnChar_headD_ne_nil_iff (c : GoStr) :
    (splitOnChar ',' c).headD [] ≠ [] ↔ c ≠ [] ∧ c.headD ' ' ≠ ',' := by
  cases c with
  | nil => simp [splitOnChar]
  | cons c0 rest =>
    rw [splitOnChar_headD_cons]
    by_cases hc : c0 = ',' <;> simp [hc]

/-! ## The sort order is a linear order -/

theorem charToNat_inj {a b : Char} (h : a.toNat = b.toNat) : a = b :=
  Char.ext (UInt32.ext h)

theorem lexLeB_total : ∀ a b : GoStr, lexLeB a b = true ∨ lexLeB b a = true := by
  intro a
  induction a with
  | nil => intro b; left; simp [lexLeB]
  | cons x xs ih =>
    intro b
    cases b with
    | nil => right; simp [lexLeB]
    | cons y ys =>
      simp only [lexLeB]
      rcases Nat.lt_trichotomy x.toNat y.toNat with h | h | h
      · left; simp [h]
      · have h1 : ¬ x.toNat < y.toNat := by omega
        have h2 : ¬ y.toNat < x.toNat := by omega
        rcases ih ys with h3 | h3
        · left; simp [h1, h2, h3]
        · right; simp [h1, h2, h3]
      · right; simp [h]

theorem lexLeB_trans : ∀ a b c : GoStr,
    lexLeB a b = true → lexLeB b c = true → lexLeB a c = true := by
  intro a
  induction a with
  | nil => intro b c _ _; simp [lexLeB]
  | cons x xs ih =>
    intro b c hab hbc
    cases b with
    | nil => simp [lexLeB] at hab
    | cons y ys =>
      cases c with
      | nil => simp [lexLeB] at hbc
      | cons z zs =>
        simp only [lexLeB] at hab hbc ⊢
        by_cases h1 : x.toNat < y.toNat
        · by_cases h2 : y.toNat < z.toNat
          · have h3 : x.toNat < z.toNat := by omega
            simp [h3]
          · rw [if_neg h2] at hbc
            by_cases h3 : z.toNat < y.toNat
            · rw [if_pos h3] at hbc
              exact absurd hbc (by simp)
            · have h4 : x.toNat < z.toNat := by omega
              simp [h4]
        · rw [if_neg h1] at hab
          by_cases h2 : y.toNat < x.toNat
          · rw [if_pos h2] at hab
            exact absurd hab (by simp)
          · rw [if_neg h2] at hab
            by_cases h3 : y.toNat < z.toNat
            · have h4 : x.toNat < z.toNat := by omega
              simp [h4]
            · rw [if_neg h3] at hbc
              by_cases h4 : z.toNat < y.toNat
              · rw [if_pos h4] at hbc
                exact absurd hbc (by simp)
              · rw [if_neg h4] at hbc
                have h5 : ¬ x.toNat < z.toNat := by omega
                have h6 : ¬ z.toNat < x.toNat := by omega
                rw [if_neg h5, if_neg h6]
                exact ih ys zs hab hbc

theorem lexLeB_antisymm : ∀ a b : GoStr,
    lexLeB a b = true → lexLeB b a = true → a = b := by
  intro a
  induction a with
  | nil =>
    intro b _ hba
    cases b with
    | nil => rfl
    | cons y ys => simp [lexLeB] at hba
  | cons x xs ih =>
    intro b hab hba
    cases b with
    | nil => simp [lexLeB] at hab
    | cons y ys =>
      simp only [lexLeB] at hab hba
      by_cases h1 : x.toNat < y.toNat
      · have h2 : ¬ y.toNat < x.toNat := by omega
        rw [if_neg h2, if_pos h1] at hba
        exact absurd hba (by simp)
      · rw [if_neg h1] at hab
        by_cases h2 : y.toNat < x.toNat
        · rw [if_pos h2] at hab
          exact absurd hab (by simp)
        · rw [if_neg h2] at hab
          rw [if_neg h2, if_neg h1] at hba
          have hxy : x = y := charToNat_inj (by omega)
          rw [hxy, ih ys hab hba]

instance : IsTotal GoStr strLe := ⟨fun a b => lexLeB_total a b⟩

instance : IsTrans GoStr strLe := ⟨fun a b c => lexLeB_trans a b c⟩

instance : IsAntisymm GoStr strLe := ⟨fun a b => lexLeB_antisymm a b⟩

/-- Sorting is invariant under permutation of the keys. -/
theorem sortStrings_eq_of_perm {l l2 : List GoStr} (h : l.Perm l2) :
    sortStrings l = sortStrings l2 := by
  apply List.eq_of_perm_of_sorted (r := strLe)
  · exact (List.perm_insertionSort strLe l).trans (h.trans (List.perm_insertionSort strLe l2).symm)
  · exact List.sorted_insertionSort strLe l
  · exact List.sorted_insertionSort strLe l2

/-! ## Shape of the digest -/

theorem hexEncode_length (bs : List Nat) : (hexEncode bs).length = 2 * bs.length := by
  induction bs with
  | nil => simp [hexEncode]
  | cons b rest ih => simp [hexEncode, ih]; omega

theorem digest16_length (s : GoStr) : (digest16 s).length = 16 := by
  simp [digest16]

theorem md5Hex_length (s : GoStr) : (md5Hex s).length = 32 := by
  simp [md5Hex, hexEncode_length, digest16_length]

theorem hexDigitChar_mem (n : Nat) (h : n < 16) : hexDigitChar n ∈ hexAlphabet := by
  have : ∀ m, m < 16 → hexDigitChar m ∈ hexAlphabet := by decide
  exact this n h

theorem hexEncode_mem (bs : List Nat) (hb : ∀ b ∈ bs, b < 256) :
    ∀ ch ∈ hexEncode bs, ch ∈ hexAlphabet := by
  induction bs with
  | nil => simp [hexEncode]
  | cons b rest ih =>
    intro ch hch
    have hblt : b < 256 := hb b (by simp)
    simp only [hexEncode, List.mem_cons] at hch
    rcases hch with h | h | h
    · rw [h]
      exact hexDigitChar_mem _ ((Nat.div_lt_iff_lt_mul (by norm_num)).mpr hblt)
    · rw [h]
      exact hexDigitChar_mem _ (Nat.mod_lt _ (by norm_num))
    · exact ih (fun b2 hb2 => hb b2 (by simp [hb2])) ch h

theorem md5Hex_mem_hex (s : GoStr) : ∀ ch ∈ md5Hex s, ch ∈ hexAlphabet := by
  apply hexEncode_mem
  intro b hbmem
  simp only [digest16, List.mem_map] at hbmem
  obtain ⟨i, _, hi⟩ := hbmem
  rw [← hi]
  exact Nat.mod_lt _ (by norm_num)

theorem md5Hex_ne_nil (s : GoStr) : md5Hex s ≠ [] := by
  intro h
  have := md5Hex_length s
  rw [h] at this
  simp at this

/-! ## Selection of the minimal fix version (claims C1, C2, C10) -/

/-- The selection loop returns the parsed version of the first qualifying
candidate (empty when none qualifies), provided no candidate panics. -/
theorem getMinimalFixVersionLoop_eq (cur : GoStr) :
    ∀ cs : List GoStr, (∀ c ∈ cs, parseVersionChangeString c ≠ none) →
      getMinimalFixVersionLoop cur cs =
        some (match cs.find? (qualifiesAgainst cur) with
          | some c => (parseVersionChangeString c).getD []
          | none => []) := by
  intro cs
  induction cs with
  | nil => intro _; simp [getMinimalFixVersionLoop]
  | cons c rest ih =>
    intro h
    have hc := h c (by simp)
    rcases hp : parseVersionChangeString c with _ | cand
    · exact absurd hp hc
    · rw [List.find?_cons]
      simp only [getMinimalFixVersionLoop, hp]
      by_cases hq : versionLtB cur cand
      · have hqc : qualifiesAgainst cur c = true := by simp [qualifiesAgainst, hp, hq]
        simp [hq, hqc, hp]
      · have hqc : qualifiesAgainst cur c = false := by
          simp [qualifiesAgainst, hp]
          simpa using hq
        simp only [hq, if_false, hqc]
        exact ih (fun c2 hc2 => h c2 (by simp [hc2]))

/-- C1 (amended): when every candidate has nonempty text before its first
comma (no panic), `getMinimalFixVersion` returns the parsed target
version — the bracket-stripped lower bound — of the first candidate whose
parsed target version strictly exceeds the impacted version with a
leading `v` stripped, and the empty string when no candidate qualifies. -/
theorem C1_returns_first_qualifying_parsed (v : GoStr) (cs : List GoStr)
    (h : ∀ c ∈ cs, parseVersionChangeString c ≠ none) :
    getMinimalFixVersion v cs = some (specFirstQualifyingParsed v cs) := by
  unfold getMinimalFixVersion specFirstQualifyingParsed qualifiesB
  exact getMinimalFixVersionLoop_eq (trimPrefixV v) cs h

/-- C1 witness: the spec's own examples, through the theorem. -/
theorem C1_returns_first_qualifying_parsed_witness :
    getMinimalFixVersion (str ("1.6.2"))
        [str ("1.5.3"), str ("1.6.1"), str ("1.6.22"), str ("1.7.0")] =
      some (specFirstQualifyingParsed (str ("1.6.2"))
        [str ("1.5.3"), str ("1.6.1"), str ("1.6.22"), str ("1.7.0")]) ∧
    specFirstQualifyingParsed (str ("1.6.2"))
        [str ("1.5.3"), str ("1.6.1"), str ("1.6.22"), str ("1.7.0")] = str ("1.6.22") ∧
    getMinimalFixVersion (str ("1.7.1"))
        [str ("1.5.3"), str ("1.6.1"), str ("1.6.22"), str ("1.7.0")] =
      some (specFirstQualifyingParsed (str ("1.7.1"))
        [str ("1.5.3"), str ("1.6.1"), str ("1.6.22"), str ("1.7.0")]) ∧
    specFirstQualifyingParsed (str ("1.7.1"))
        [str ("1.5.3"), str ("1.6.1"), str ("1.6.22"), str ("1.7.0")] = str ("") :=
  ⟨C1_returns_first_qualifying_parsed _ _ (by decide), by decide,
    C1_returns_first_qualifying_parsed _ _ (by decide), by decide⟩

/-- C1 counterexample: for a bracketed candidate the function returns the
parsed lower bound, not the candidate list element itself, so the claim
as stated fails at `v = "1.0"`, `cs = ["[2.0]"]`. -/
theorem C1_counterexample_bracketed_candidate :
    getMinimalFixVersion (str ("1.0")) [str ("[2.0]")] = some (str ("2.0")) ∧
    specFirstQualifyingCandidate (str ("1.0")) [str ("[2.0]")] = str ("[2.0]") ∧
    getMinimalFixVersion (str ("1.0")) [str ("[2.0]")] ≠
      some (specFirstQualifyingCandidate (str ("1.0")) [str ("[2.0]")]) := by
  exact ⟨by decide, by decide, by decide⟩

/-- C2 (amended): for every candidate whose text before the first comma
is nonempty, `parseVersionChangeString` returns the interval's
lower-bound endpoint with enclosing brackets stripped — the empty string
when the candidate opens with `(`. -/
theorem C2_parse_returns_lower_bound (c : GoStr)
    (h : (splitOnChar ',' c).headD [] ≠ []) :
    parseVersionChangeString c = some (specLowerBoundEndpoint c) := by
  cases c with
  | nil => simp [splitOnChar] at h
  | cons c0 rest =>
    rw [splitOnChar_headD_cons] at h
    by_cases hc : c0 = ','
    · simp [hc] at h
    · unfold parseVersionChangeString specLowerBoundEndpoint
      rw [splitOnChar_headD_cons, if_neg hc]
      by_cases hp : c0 = '(' <;> simp [hp]

/-- C2 witness: the spec's interval examples, through the theorem. -/
theorem C2_parse_returns_lower_bound_witness :
    parseVersionChangeString (str ("1.0")) = some (specLowerBoundEndpoint (str ("1.0"))) ∧
    specLowerBoundEndpoint (str ("1.0")) = str ("1.0") ∧
    parseVersionChangeString (str ("[1.0]")) = some (specLowerBoundEndpoint (str ("[1.0]"))) ∧
    specLowerBoundEndpoint (str ("[1.0]")) = str ("1.0") ∧
    parseVersionChangeString (str ("[1.0,2.0]")) =
      some (specLowerBoundEndpoint (str ("[1.0,2.0]"))) ∧
    specLowerBoundEndpoint (str ("[1.0,2.0]")) = str ("1.0") ∧
    parseVersionChangeString (str ("(,1.0]")) = some (specLowerBoundEndpoint (str ("(,1.0]"))) ∧
    specLowerBoundEndpoint (str ("(,1.0]")) = str ("") ∧
    parseVersionChangeString (str ("(1.0,2.0)")) =
      some (specLowerBoundEndpoint (str ("(1.0,2.0)"))) ∧
    specLowerBoundEndpoint (str ("(1.0,2.0)")) = str ("") :=
  ⟨C2_parse_returns_lower_bound _ (by decide), by decide,
    C2_parse_returns_lower_bound _ (by decide), by decide,
    C2_parse_returns_lower_bound _ (by decide), by decide,
    C2_parse_returns_lower_bound _ (by decide), by decide,
    C2_parse_returns_lower_bound _ (by decide), by decide⟩

/-- C2 counterexample: `",1.0]"` is a nonempty candidate that does not
start with `(`, yet the function panics (indexes an empty string) instead
of returning any value, so the claim quantified over all nonempty
candidates fails. -/
theorem C2_counterexample_comma_candidate :
    str (",1.0]") ≠ [] ∧ parseVersionChangeString (str (",1.0]")) = none := by
  exact ⟨by decide, by decide⟩

/-- C10 (amended): the first-character access inside
`parseVersionChangeString` is in bounds exactly for candidates whose text
before the first comma is nonempty; the empty candidate and any candidate
starting with a comma panic, and they make `getMinimalFixVersion` panic
when examined, while candidate lists that are all nonempty and
comma-free in front are safe. -/
theorem C10_parse_bounds_and_safety :
    (∀ c : GoStr, (splitOnChar ',' c).headD [] ≠ [] → parseVersionChangeString c ≠ none) ∧
    parseVersionChangeString [] = none ∧
    (∀ s : GoStr, parseVersionChangeString (',' :: s) = none) ∧
    (∀ v cs, (∀ c ∈ cs, c ≠ [] ∧ c.headD ' ' ≠ ',') →
      (getMinimalFixVersion v cs).isSome = true) ∧
    (∀ v : GoStr, getMinimalFixVersion v [[]] = none) ∧
    (∀ v s : GoStr, getMinimalFixVersion v [',' :: s] = none) := by
  have hparse : ∀ c : GoStr, (splitOnChar ',' c).headD [] ≠ [] →
      parseVersionChangeString c ≠ none := by
    intro c h hcontra
    exact h ((parseVersionChangeString_eq_none_iff c).mp hcontra)
  have hcomma : ∀ s : GoStr, parseVersionChangeString (',' :: s) = none := by
    intro s
    rw [parseVersionChangeString_eq_none_iff, splitOnChar_headD_cons]
    simp
  refine ⟨hparse, by simp [parseVersionChangeString, splitOnChar], hcomma, ?_, ?_, ?_⟩
  · intro v cs h
    rw [getMinimalFixVersion,
      getMinimalFixVersionLoop_eq (trimPrefixV v) cs (fun c hc => by
        apply hparse
        rw [splitOnChar_headD_ne_nil_iff]
        exact h c hc)]
    simp
  · intro v
    simp [getMinimalFixVersion, getMinimalFixVersionLoop, parseVersionChangeString,
      splitOnChar]
  · intro v s
    simp [getMinimalFixVersion, getMinimalFixVersionLoop, hcomma s]

/-- C10 witness: concrete instances of the bounded and safe cases,
through the theorem. -/
theorem C10_parse_bounds_and_safety_witness :
    parseVersionChangeString (str ("[1.0,2.0]")) ≠ none ∧
    (getMinimalFixVersion (str ("1.6.2"))
      [str ("1.5.3"), str ("1.6.1"), str ("1.6.22"), str ("1.7.0")]).isSome = true :=
  ⟨C10_parse_bounds_and_safety.1 _ (by decide),
    C10_parse_bounds_and_safety.2.2.2.1 _ _ (by decide)⟩

/-- C10 counterexample: the claimed precondition is sufficient but not
necessary — with `v = "1.0"` and candidates `["2.0", ""]` the empty
candidate violates it, yet the call is safe because the first candidate
qualifies before the empty one is ever parsed. -/
theorem C10_counterexample_not_necessary :
    (str ("")) ∈ [str ("2.0"), str ("")] ∧ str ("") = ([] : GoStr) ∧
    getMinimalFixVersion (str ("1.0")) [str ("2.0"), str ("")] = some (str ("2.0")) := by
  exact ⟨by decide, by decide, by decide⟩

/-! ## Conflict resolution on repeated findings (claims C3, C9) -/

/-- The finding returned by a successful `addVulnerabilityToFixVersionsMap`. -/
def addOkRow : AddResult → Option VulnerabilityOrViolationRow
  | .ok _ r _ => some r
  | _ => none

/-- The fix version stored under `key` in the map returned by a
successful `addVulnerabilityToFixVersionsMap` (empty otherwise). -/
def addSuggestedAt (res : AddResult) (key : GoStr) : GoStr :=
  match res with
  | .ok _ _ m => ((m key).map (·.SuggestedFixedVersion)).getD []
  | _ => []

/-- Model of `UpdateFixVersionIfMax` realises the spec's maximum rule whenever the
stored version is nonempty (which holds for every entry the pipeline
creates): strictly greater incoming versions replace, ties and smaller
ones keep the existing value. -/
theorem updateFixVersionIfMax_eq_specMax (vd : VulnerabilityDetails) (f : GoStr)
    (h : vd.SuggestedFixedVersion ≠ []) :
    UpdateFixVersionIfMax vd f =
      { vd with SuggestedFixedVersion := specMaxVersion vd.SuggestedFixedVersion f } := by
  unfold UpdateFixVersionIfMax specMaxVersion versionLtB
  rcases hcmp : versionCmp vd.SuggestedFixedVersion f with _ | _ | _
  · rw [if_pos (Or.inr (by decide))]
  · have hcond : ¬(vd.SuggestedFixedVersion = [] ∨ (Ordering.eq == Ordering.lt) = true) := by
      rintro (hc | hc)
      · exact h hc
      · exact absurd hc (by decide)
    rw [if_neg hcond]
  · have hcond : ¬(vd.SuggestedFixedVersion = [] ∨ (Ordering.gt == Ordering.lt) = true) := by
      rintro (hc | hc)
      · exact h hc
      · exact absurd hc (by decide)
    rw [if_neg hcond]

/-- C3 finding one: fixable to 1.2.3. -/
def findingOne : VulnerabilityOrViolationRow :=
  { Summary := str ("s"), Severity := str ("High"),
    ImpactedDependencyName := str ("pkg"),
    ImpactedDependencyVersion := str ("1.0.0"),
    FixedVersions := [str ("1.2.3")],
    Cves := [⟨str ("CVE-2023-1")⟩], IssueId := str ("XRAY-1"),
    Technology := str ("go"), ImpactPaths := [[⟨str ("root"), str ("1")⟩]] }

/-- C3 finding two: the same package, fixable to 1.5.0. -/
def findingTwo : VulnerabilityOrViolationRow :=
  { findingOne with FixedVersions := [str ("1.5.0")], IssueId := str ("XRAY-2") }

/-- C3: when the map already holds an entry for the package, a second
finding updates the stored fix version to the maximum of the existing
value and the finding's minimal fix version (ties keep the existing
value); concretely, two findings with minimal fix versions 1.2.3 and
1.5.0, processed in either order, leave 1.5.0 stored. -/
theorem C3_repeated_finding_takes_max :
    (∀ (tech : List GoStr) (m : VulnMap) (row : VulnerabilityOrViolationRow)
      (vd : VulnerabilityDetails) (f : GoStr),
      m row.ImpactedDependencyName = some vd →
      vd.SuggestedFixedVersion ≠ [] →
      row.FixedVersions ≠ [] →
      getMinimalFixVersion row.ImpactedDependencyVersion row.FixedVersions = some f →
      f ≠ [] →
      addVulnerabilityToFixVersionsMap tech row m =
        .ok (if tech = [] then [row.Technology] else tech)
          (setFixedVersionsFromMap row (mapInsert m row.ImpactedDependencyName
            { vd with SuggestedFixedVersion := specMaxVersion vd.SuggestedFixedVersion f }))
          (mapInsert m row.ImpactedDependencyName
            { vd with SuggestedFixedVersion := specMaxVersion vd.SuggestedFixedVersion f })) ∧
    finalSuggestedVersion [findingOne, findingTwo] (str ("pkg")) = some (str ("1.5.0")) ∧
    finalSuggestedVersion [findingTwo, findingOne] (str ("pkg")) = some (str ("1.5.0")) := by
  refine ⟨?_, by decide, by decide⟩
  intro tech m row vd f hm hvd hfv hf hf0
  unfold addVulnerabilityToFixVersionsMap
  rw [if_neg hfv]
  simp only [hf]
  rw [if_neg hf0]
  simp only [hm]
  rw [updateFixVersionIfMax_eq_specMax vd f hvd]

/-- C3 witness: the general conjunct applied to a concrete repeated
finding. -/
theorem C3_repeated_finding_takes_max_witness :
    addVulnerabilityToFixVersionsMap [str ("go")] findingTwo
        (mapInsert emptyVulnMap (str ("pkg")) (NewVulnerabilityDetails findingOne (str ("1.2.3")))) =
      .ok [str ("go")]
        (setFixedVersionsFromMap findingTwo
          (mapInsert (mapInsert emptyVulnMap (str ("pkg"))
              (NewVulnerabilityDetails findingOne (str ("1.2.3")))) (str ("pkg"))
            { NewVulnerabilityDetails findingOne (str ("1.2.3")) with
                SuggestedFixedVersion := specMaxVersion (str ("1.2.3")) (str ("1.5.0")) }))
        (mapInsert (mapInsert emptyVulnMap (str ("pkg"))
            (NewVulnerabilityDetails findingOne (str ("1.2.3")))) (str ("pkg"))
          { NewVulnerabilityDetails findingOne (str ("1.2.3")) with
              SuggestedFixedVersion := specMaxVersion (str ("1.2.3")) (str ("1.5.0")) }) :=
  C3_repeated_finding_takes_max.1 [str ("go")]
    (mapInsert emptyVulnMap (str ("pkg")) (NewVulnerabilityDetails findingOne (str ("1.2.3"))))
    findingTwo (NewVulnerabilityDetails findingOne (str ("1.2.3"))) (str ("1.5.0"))
    (by decide) (by decide) (by decide) (by decide) (by decide)

/-- Shape of a successful `addVulnerabilityToFixVersionsMap`: the finding
comes back either untouched (skip paths) or with only its fix-version
list rewritten from the updated map. -/
theorem addVuln_row_shape (tech : List GoStr) (row : VulnerabilityOrViolationRow)
    (m : VulnMap) :
    addOkRow (addVulnerabilityToFixVersionsMap tech row m) = none ∨
    addOkRow (addVulnerabilityToFixVersionsMap tech row m) = some row ∨
    (∃ tech2 m2, addVulnerabilityToFixVersionsMap tech row m =
      .ok tech2 (setFixedVersionsFromMap row m2) m2) := by
  unfold addVulnerabilityToFixVersionsMap
  by_cases h1 : row.FixedVersions = []
  · right; left; simp [h1, addOkRow]
  · rw [if_neg h1]
    rcases h2 : getMinimalFixVersion row.ImpactedDependencyVersion row.FixedVersions with
      _ | f
    · left; simp [addOkRow]
    · simp only []
      by_cases h3 : f = []
      · right; left; simp [h3, addOkRow]
      · rw [if_neg h3]
        rcases h4 : m row.ImpactedDependencyName with _ | vd
        · simp only [h4]
          rcases h5 : IsDirectDependency row.ImpactPaths with e | d
          · left; simp [addOkRow]
          · right; right; exact ⟨_, _, rfl⟩
        · simp only [h4]
          right; right; exact ⟨_, _, rfl⟩

/-- C9's concrete finding: fixable from 1.6.2 to 1.6.22. -/
def findingNine : VulnerabilityOrViolationRow :=
  { Summary := str ("s9"), Severity := str ("Medium"),
    ImpactedDependencyName := str ("mquery"),
    ImpactedDependencyVersion := str ("1.6.2"),
    FixedVersions := [str ("1.5.3"), str ("1.6.1"), str ("1.6.22"), str ("1.7.0")],
    Cves := [⟨str ("CVE-2020-1")⟩], IssueId := str ("XRAY-9"),
    Technology := str ("npm"),
    ImpactPaths := [[⟨str ("root"), str ("1")⟩, ⟨str ("mquery"), str ("1.6.2")⟩]] }

/-- The same finding after the map pipeline rewrote its fix-version
list. -/
def findingNineAfter : VulnerabilityOrViolationRow :=
  { findingNine with FixedVersions := [str ("1.6.22")] }

/-- C9 (amended): the map pipeline leaves every field of a processed
finding unchanged except `FixedVersions`, which — whenever a fix version
was selected — is overwritten with the singleton of the fix version now
stored in the map for the finding's package; skipped findings come back
entirely unchanged. -/
theorem C9_finding_fields_preserved (tech : List GoStr)
    (row row2 : VulnerabilityOrViolationRow) (m : VulnMap)
    (h : addOkRow (addVulnerabilityToFixVersionsMap tech row m) = some row2) :
    row2.Summary = row.Summary ∧ row2.Severity = row.Severity ∧
    row2.ImpactedDependencyName = row.ImpactedDependencyName ∧
    row2.ImpactedDependencyVersion = row.ImpactedDependencyVersion ∧
    row2.Cves = row.Cves ∧ row2.IssueId = row.IssueId ∧
    row2.Technology = row.Technology ∧ row2.ImpactPaths = row.ImpactPaths ∧
    (row2 = row ∨ row2.FixedVersions =
      [addSuggestedAt (addVulnerabilityToFixVersionsMap tech row m)
        row.ImpactedDependencyName]) := by
  rcases addVuln_row_shape tech row m with hs | hs | ⟨tech2, m2, hs⟩
  · rw [hs] at h
    exact absurd h (by simp)
  · rw [hs] at h
    injection h with h2
    subst h2
    exact ⟨rfl, rfl, rfl, rfl, rfl, rfl, rfl, rfl, Or.inl rfl⟩
  · rw [hs] at h
    simp only [addOkRow] at h
    injection h with h2
    subst h2
    rw [hs]
    exact ⟨rfl, rfl, rfl, rfl, rfl, rfl, rfl, rfl, Or.inr rfl⟩

/-- C9 witness: the amended statement at a concrete fixable finding. -/
theorem C9_finding_fields_preserved_witness :
    findingNineAfter.Summary = findingNine.Summary ∧
    findingNineAfter.Severity = findingNine.Severity ∧
    findingNineAfter.ImpactedDependencyName = findingNine.ImpactedDependencyName ∧
    findingNineAfter.ImpactedDependencyVersion = findingNine.ImpactedDependencyVersion ∧
    findingNineAfter.Cves = findingNine.Cves ∧
    findingNineAfter.IssueId = findingNine.IssueId ∧
    findingNineAfter.Technology = findingNine.Technology ∧
    findingNineAfter.ImpactPaths = findingNine.ImpactPaths ∧
    (findingNineAfter = findingNine ∨ findingNineAfter.FixedVersions =
      [addSuggestedAt (addVulnerabilityToFixVersionsMap [] findingNine emptyVulnMap)
        findingNine.ImpactedDependencyName]) :=
  C9_finding_fields_preserved [] findingNine findingNineAfter emptyVulnMap (by decide)

/-- C9 counterexample: the claim as stated — every field including the
candidate fix-version list survives unchanged — fails: the pipeline
deliberately replaces `FixedVersions` with the selected fix version. -/
theorem C9_counterexample_fixed_versions_overwritten :
    addOkRow (addVulnerabilityToFixVersionsMap [] findingNine emptyVulnMap) =
      some findingNineAfter ∧
    findingNineAfter.FixedVersions ≠ findingNine.FixedVersions := by
  exact ⟨by decide, by decide⟩

/-! ## Aggregated checksum stability (claim C6) -/

/-- C6: the scan checksum is invariant under permutation of the finding
rows — the unique keys are sorted before hashing — and is always a
32-character string over the hexadecimal alphabet. -/
theorem C6_checksum_permutation_invariant (rows rows2 : List VulnerabilityOrViolationRow)
    (h : rows.Perm rows2) :
    VulnerabilityDetailsToMD5Hash rows = VulnerabilityDetailsToMD5Hash rows2 ∧
    (VulnerabilityDetailsToMD5Hash rows).length = 32 ∧
    (∀ ch ∈ VulnerabilityDetailsToMD5Hash rows, ch ∈ hexAlphabet) := by
  refine ⟨?_, md5Hex_length _, md5Hex_mem_hex _⟩
  unfold VulnerabilityDetailsToMD5Hash
  rw [sortStrings_eq_of_perm (h.map GetVulnerabiltiesUniqueID)]

/-- C6's first concrete finding. -/
def findingSixA : VulnerabilityOrViolationRow :=
  { Summary := str ("a"), Severity := str ("High"),
    ImpactedDependencyName := str ("minimist"),
    ImpactedDependencyVersion := str ("1.2.5"),
    FixedVersions := [str ("1.2.6")],
    Cves := [⟨str ("CVE-2021-44906")⟩], IssueId := str ("XRAY-A"),
    Technology := str ("npm"), ImpactPaths := [[⟨str ("root"), str ("1")⟩]] }

/-- C6's second concrete finding. -/
def findingSixB : VulnerabilityOrViolationRow :=
  { findingSixA with ImpactedDependencyName := str ("lodash"), IssueId := str ("XRAY-B") }

/-- C6 witness: the invariance at a concrete two-row swap, through the
theorem. -/
theorem C6_checksum_permutation_invariant_witness :
    VulnerabilityDetailsToMD5Hash [findingSixA, findingSixB] =
      VulnerabilityDetailsToMD5Hash [findingSixB, findingSixA] ∧
    (VulnerabilityDetailsToMD5Hash [findingSixA, findingSixB]).length = 32 ∧
    (∀ ch ∈ VulnerabilityDetailsToMD5Hash [findingSixA, findingSixB], ch ∈ hexAlphabet) :=
  C6_checksum_permutation_invariant [findingSixA, findingSixB] [findingSixB, findingSixA]
    (List.Perm.swap findingSixB findingSixA [])

/-! ## The per-package loop (claims C4, C7, C8) -/

/-- When every checkout back to the base branch succeeds, the per-package
loop is exactly the independent composition of its iterations: each
package's handled error is joined in order, and each package's trace is
followed by a checkout of the base branch. -/
theorem fixProjectVulnerabilities_eq (env : FixEnv) (vds : List VulnerabilityDetails)
    (hco : env.checkoutErr env.baseBranch = none) :
    fixProjectVulnerabilities env vds =
      ((vds.map (fun vd => (fixSinglePackageAndCreatePR env vd).1.bind
          handleUpdatePackageErrors)).foldr joinOpt none,
        (vds.map (fun vd => (fixSinglePackageAndCreatePR env vd).2 ++
          [GitEffect.checkout env.baseBranch])).flatten) := by
  induction vds with
  | nil => simp [fixProjectVulnerabilities]
  | cons vd rest ih =>
    simp only [fixProjectVulnerabilities, hco]
    rw [ih]
    simp [List.append_assoc]

/-- C7: with checkouts succeeding, one package's failure never aborts the
loop — every package is attempted, each package's handled error is
recorded independently in the joined result, and the base branch is
checked out after every package. -/
theorem C7_one_failure_does_not_abort (env : FixEnv) (vds : List VulnerabilityDetails)
    (hco : env.checkoutErr env.baseBranch = none) :
    fixProjectVulnerabilities env vds =
      ((vds.map (fun vd => (fixSinglePackageAndCreatePR env vd).1.bind
          handleUpdatePackageErrors)).foldr joinOpt none,
        (vds.map (fun vd => (fixSinglePackageAndCreatePR env vd).2 ++
          [GitEffect.checkout env.baseBranch])).flatten) :=
  fixProjectVulnerabilities_eq env vds hco

/-- C7 witness environment: the handler fails for package two only. -/
def envSeven : FixEnv :=
  { baseBranch := str ("main"), remoteBranches := [], branchListErr := none,
    createBranchErr := fun _ => none,
    updateDependencyResult := fun p _ =>
      if p = str ("two") then some (.msg (str ("handler failed"))) else none,
    worktreeCleanAfterFix := fun _ => .ok false,
    commitErr := fun _ => none, pushErr := fun _ => none,
    createPullRequestErr := fun _ => none, updatePullRequestErr := fun _ => none,
    checkoutErr := fun _ => none }

/-- A C7 package record for package `name`. -/
def vdSeven (name : String) : VulnerabilityDetails :=
  NewVulnerabilityDetails
    { Summary := str ("s"), Severity := str ("High"),
      ImpactedDependencyName := str (name),
      ImpactedDependencyVersion := str ("1.0.0"),
      FixedVersions := [str ("2.0.0")],
      Cves := [], IssueId := str ("XRAY-7"),
      Technology := str ("go"), ImpactPaths := [[⟨str (name), str ("1.0.0")⟩]] }
    (str ("2.0.0"))

/-- C7 witness: three packages with the middle handler failing; the
theorem's loop equation applies, and all three packages are attempted
with the failure recorded. -/
theorem C7_one_failure_does_not_abort_witness :
    fixProjectVulnerabilities envSeven [vdSeven ("one"), vdSeven ("two"), vdSeven ("three")] =
      (([vdSeven ("one"), vdSeven ("two"), vdSeven ("three")].map
          (fun vd => (fixSinglePackageAndCreatePR envSeven vd).1.bind
            handleUpdatePackageErrors)).foldr joinOpt none,
        (([vdSeven ("one"), vdSeven ("two"), vdSeven ("three")].map
          (fun vd => (fixSinglePackageAndCreatePR envSeven vd).2 ++
            [GitEffect.checkout envSeven.baseBranch])).flatten)) ∧
    (fixProjectVulnerabilities envSeven [vdSeven ("one"), vdSeven ("two"), vdSeven ("three")]).1 =
      some (.msg (str ("handler failed"))) ∧
    (GitEffect.updateDependency (str ("one")) (str ("2.0.0"))) ∈
      (fixProjectVulnerabilities envSeven [vdSeven ("one"), vdSeven ("two"), vdSeven ("three")]).2 ∧
    (GitEffect.updateDependency (str ("three")) (str ("2.0.0"))) ∈
      (fixProjectVulnerabilities envSeven [vdSeven ("one"), vdSeven ("two"), vdSeven ("three")]).2 :=
  ⟨C7_one_failure_does_not_abort envSeven [vdSeven ("one"), vdSeven ("two"), vdSeven ("three")] rfl,
    by decide, by decide, by decide⟩

/-- C4: a fix whose deterministic branch name already exists on the
remote is skipped without error and without any branch creation, handler
invocation, commit, push or pull-request creation (only the attempt is
logged); consequently a second run over findings whose branches were all
pushed before opens no pull request at all. -/
theorem C4_existing_branch_short_circuits :
    (∀ (env : FixEnv) (vd : VulnerabilityDetails),
      env.branchListErr = none →
      generateFixBranchName env.baseBranch vd.row.ImpactedDependencyName
          vd.SuggestedFixedVersion ∈ env.remoteBranches →
      fixSinglePackageAndCreatePR env vd =
        (none, [.logAttempt vd.row.ImpactedDependencyName
          vd.row.ImpactedDependencyVersion])) ∧
    (∀ (env : FixEnv) (vds : List VulnerabilityDetails),
      env.branchListErr = none →
      (∀ vd ∈ vds, generateFixBranchName env.baseBranch vd.row.ImpactedDependencyName
          vd.SuggestedFixedVersion ∈ env.remoteBranches) →
      ∀ src, GitEffect.createPullRequest src ∉ (fixProjectVulnerabilities env vds).2) := by
  have hskip : ∀ (env : FixEnv) (vd : VulnerabilityDetails),
      env.branchListErr = none →
      generateFixBranchName env.baseBranch vd.row.ImpactedDependencyName
          vd.SuggestedFixedVersion ∈ env.remoteBranches →
      fixSinglePackageAndCreatePR env vd =
        (none, [.logAttempt vd.row.ImpactedDependencyName
          vd.row.ImpactedDependencyVersion]) := by
    intro env vd hbl hmem
    unfold fixSinglePackageAndCreatePR branchExistsInRemote
    rw [hbl]
    simp [hmem]
  refine ⟨hskip, ?_⟩
  intro env vds hbl hmem src
  induction vds with
  | nil => simp [fixProjectVulnerabilities]
  | cons vd rest ih =>
    have h1 := hskip env vd hbl (hmem vd (by simp))
    simp only [fixProjectVulnerabilities, h1]
    rcases hco : env.checkoutErr env.baseBranch with _ | ce
    · have ih2 := ih (fun v hv => hmem v (by simp [hv]))
      simp only []
      intro hcontra
      rcases List.mem_append.mp hcontra with h2 | h2
      · rcases List.mem_append.mp h2 with h3 | h3 <;> simp at h3
      · exact ih2 h2
    · intro hcontra
      rcases List.mem_append.mp hcontra with h2 | h2 <;> simp at h2

/-- C4 witness environment: both fix branches already exist remotely. -/
def envFour : FixEnv :=
  { envSeven with
      remoteBranches :=
        [generateFixBranchName (str ("main")) (str ("one")) (str ("2.0.0")),
          generateFixBranchName (str ("main")) (str ("three")) (str ("2.0.0"))] }

/-- C4 witness: the skip applied to a concrete existing branch, and a
whole second run over two already-pushed fixes opening no pull
request. -/
theorem C4_existing_branch_short_circuits_witness :
    fixSinglePackageAndCreatePR envFour (vdSeven ("one")) =
      (none, [.logAttempt (str ("one")) (str ("1.0.0"))]) ∧
    GitEffect.createPullRequest (str ("b")) ∉
      (fixProjectVulnerabilities envFour [vdSeven ("one"), vdSeven ("three")]).2 :=
  ⟨C4_existing_branch_short_circuits.1 envFour (vdSeven ("one")) rfl (by decide),
    C4_existing_branch_short_circuits.2 envFour [vdSeven ("one"), vdSeven ("three")] rfl
      (by decide) (str ("b"))⟩

/-- C8: `handleUpdatePackageErrors` returns `nil` exactly for errors that
are or wrap `ErrUnsupportedFix`, returns every other error unchanged, and
consequently a run in which the package handlers fail only with the typed
unsupported-fix error (all Git and VCS operations succeeding) returns no
error overall. -/
theorem C8_unsupported_fix_nonfatal :
    (∀ e : GoError, errorsAsUnsupported e = true → handleUpdatePackageErrors e = none) ∧
    (∀ e : GoError, errorsAsUnsupported e = false → handleUpdatePackageErrors e = some e) ∧
    (∀ (env : FixEnv) (vds : List VulnerabilityDetails),
      env.checkoutErr env.baseBranch = none →
      env.branchListErr = none →
      (∀ b, env.createBranchErr b = none) →
      (∀ p, env.worktreeCleanAfterFix p = .ok false) →
      (∀ b, env.commitErr b = none) →
      (∀ b, env.pushErr b = none) →
      (∀ b, env.createPullRequestErr b = none) →
      (∀ p f, env.updateDependencyResult p f = none ∨
        ∃ pn fv ind, env.updateDependencyResult p f = some (.unsupportedFix pn fv ind)) →
      (fixProjectVulnerabilities env vds).1 = none) := by
  refine ⟨?_, ?_, ?_⟩
  · intro e he
    simp [handleUpdatePackageErrors, he]
  · intro e he
    simp [handleUpdatePackageErrors, he]
  · intro env vds hco hbl hcb hcl hcm hpu hcp hhd
    rw [fixProjectVulnerabilities_eq env vds hco]
    have hvd : ∀ vd : VulnerabilityDetails,
        (fixSinglePackageAndCreatePR env vd).1.bind handleUpdatePackageErrors = none := by
      intro vd
      unfold fixSinglePackageAndCreatePR branchExistsInRemote
      rw [hbl]
      by_cases hmem : generateFixBranchName env.baseBranch vd.row.ImpactedDependencyName
          vd.SuggestedFixedVersion ∈ env.remoteBranches
      · simp [hmem]
      · have hd : decide (generateFixBranchName env.baseBranch vd.row.ImpactedDependencyName
            vd.SuggestedFixedVersion ∈ env.remoteBranches) = false := by
          simp [hmem]
        simp only [hd]
        rw [hcb]
        rcases hhd vd.row.ImpactedDependencyName vd.SuggestedFixedVersion with hh | ⟨pn, fv, ind, hh⟩
        · rw [hh]
          unfold openFixingPullRequest
          rw [hcl, hcm, hpu, hcp]
          simp
        · rw [hh]
          simp [handleUpdatePackageErrors, errorsAsUnsupported]
    simp only []
    induction vds with
    | nil => simp
    | cons vd rest ih =>
      rw [List.map_cons, List.foldr_cons, hvd vd, ih]
      rfl

/-- C8 witness environment: every handler reports the typed
unsupported-fix error. -/
def envEight : FixEnv :=
  { envSeven with
      updateDependencyResult := fun p f => some (.unsupportedFix p f true) }

/-- C8 witness: the exact characterisation at concrete errors, and a
concrete two-package run whose handlers only raise unsupported-fix,
returning no overall error. -/
theorem C8_unsupported_fix_nonfatal_witness :
    handleUpdatePackageErrors (.unsupportedFix (str ("pip")) (str ("2.0")) false) = none ∧
    handleUpdatePackageErrors (.wrapErr (str ("ctx"))
      (.unsupportedFix (str ("pip")) (str ("2.0")) false)) = none ∧
    handleUpdatePackageErrors (.msg (str ("boom"))) = some (.msg (str ("boom"))) ∧
    (fixProjectVulnerabilities envEight [vdSeven ("one"), vdSeven ("two")]).1 = none :=
  ⟨C8_unsupported_fix_nonfatal.1 _ (by decide),
    C8_unsupported_fix_nonfatal.1 _ (by decide),
    C8_unsupported_fix_nonfatal.2.1 _ (by decide),
    C8_unsupported_fix_nonfatal.2.2 envEight [vdSeven ("one"), vdSeven ("two")]
      rfl rfl (fun _ => rfl) (fun _ => rfl) (fun _ => rfl) (fun _ => rfl) (fun _ => rfl)
      (fun p f => Or.inr ⟨p, f, true, rfl⟩)⟩

/-! ## Aggregated create-or-update decision (claim C5) -/

/-- Is the effect a push or a pull-request creation or update? -/
def isPushOrPrEffect : GitEffect → Bool
  | .push _ _ => true
  | .createPullRequest _ => true
  | .updatePullRequest _ => true
  | _ => false

/-- The aggregated fix phase performs only dependency updates. -/
theorem fixMultiplePackages_effects (env : FixEnv) (vds : List VulnerabilityDetails) :
    ∀ eff ∈ (fixMultiplePackages env vds).2.2, ∃ p f, eff = GitEffect.updateDependency p f := by
  induction vds with
  | nil => simp [fixMultiplePackages]
  | cons vd rest ih =>
    intro eff hmem
    simp only [fixMultiplePackages] at hmem
    rcases hfm : fixMultiplePackages env rest with ⟨fr, er, efr⟩
    rw [hfm] at hmem ih
    rcases hh : env.updateDependencyResult vd.row.ImpactedDependencyName
        vd.SuggestedFixedVersion with _ | e <;>
      rw [hh] at hmem <;>
      rcases List.mem_cons.mp hmem with h2 | h2
    · exact ⟨_, _, h2⟩
    · exact ih eff h2
    · exact ⟨_, _, h2⟩
    · exact ih eff h2

/-- The whole collection loop performs only dependency updates. -/
theorem collectAggregatedFixes_effects (env : FixEnv)
    (vmap : List (GoStr × List VulnerabilityDetails)) :
    ∀ eff ∈ (collectAggregatedFixes env vmap).2.2,
      ∃ p f, eff = GitEffect.updateDependency p f := by
  induction vmap with
  | nil => simp [collectAggregatedFixes]
  | cons entry rest ih =>
    intro eff hmem
    simp only [collectAggregatedFixes] at hmem
    rcases hfm : fixMultiplePackages env entry.2 with ⟨f1, e1, efs1⟩
    rcases hcr : collectAggregatedFixes env rest with ⟨fr, er, efr⟩
    rw [hfm, hcr] at hmem
    rw [hcr] at ih
    have hfme := fixMultiplePackages_effects env entry.2
    rw [hfm] at hfme
    rcases e1 with _ | e <;> simp only [] at hmem <;>
      rcases List.mem_append.mp hmem with h2 | h2
    · exact hfme eff h2
    · exact ih eff h2
    · exact hfme eff h2
    · exact ih eff h2

/-- C5 (amended): with an existing aggregated pull request whose embedded
checksum equals the digest of the successfully fixed set, the run
performs no push and no pull-request create or update; when the
checksums differ — in particular whenever no checksum marker is found —
the branch is force-pushed and the pull request created or updated,
provided at least one vulnerability was successfully fixed (and the
commit, push and pull-request operations themselves succeed). -/
theorem C5_aggregated_create_or_update :
    (∀ (env : FixEnv) (vmap : List (GoStr × List VulnerabilityDetails))
      (branch : GoStr) (pr : PullRequestInfo),
      getRemoteBranchScanHash pr.body =
        VulnerabilityDetailsToMD5Hash (ExtractVulnerabilitiesDetailsToRows
          (collectAggregatedFixes env vmap).1) →
      ∀ eff ∈ (aggregateFixAndOpenPullRequest env vmap branch (some pr)).2,
        isPushOrPrEffect eff = false) ∧
    (∀ (env : FixEnv) (vmap : List (GoStr × List VulnerabilityDetails))
      (branch : GoStr) (prOpt : Option PullRequestInfo),
      env.createBranchErr branch = none →
      env.commitErr branch = none →
      env.pushErr branch = none →
      env.createPullRequestErr branch = none →
      (∀ i, env.updatePullRequestErr i = none) →
      (collectAggregatedFixes env vmap).1 ≠ [] →
      (∀ pr, prOpt = some pr → getRemoteBranchScanHash pr.body ≠
        VulnerabilityDetailsToMD5Hash (ExtractVulnerabilitiesDetailsToRows
          (collectAggregatedFixes env vmap).1)) →
      GitEffect.push true branch ∈
        (aggregateFixAndOpenPullRequest env vmap branch prOpt).2 ∧
      (prOpt = none → GitEffect.createPullRequest branch ∈
        (aggregateFixAndOpenPullRequest env vmap branch prOpt).2) ∧
      (∀ pr, prOpt = some pr → GitEffect.updatePullRequest pr.prId ∈
        (aggregateFixAndOpenPullRequest env vmap branch prOpt).2)) ∧
    (∀ (body : GoStr) (rows : List VulnerabilityOrViolationRow),
      findChecksum body = none →
      getRemoteBranchScanHash body ≠ VulnerabilityDetailsToMD5Hash rows) := by
  refine ⟨?_, ?_, ?_⟩
  · intro env vmap branch pr hsync eff hmem
    unfold aggregateFixAndOpenPullRequest at hmem
    rcases hcb : env.createBranchErr branch with _ | e
    · rw [hcb] at hmem
      rcases hcoll : collectAggregatedFixes env vmap with ⟨fixed, err0, effs0⟩
      rw [hcoll] at hmem
      rw [hcoll] at hsync
      dsimp only at hmem hsync
      have hup : isUpdateRequired fixed (some pr) = false := by
        simp only [isUpdateRequired, hsync]
        simp
      rw [hup] at hmem
      simp only [Bool.false_eq_true, if_false] at hmem
      rcases List.mem_cons.mp hmem with h2 | h2
      · rw [h2]; rfl
      · have := collectAggregatedFixes_effects env vmap
        rw [hcoll] at this
        obtain ⟨p, f, hpf⟩ := this eff h2
        rw [hpf]; rfl
    · rw [hcb] at hmem
      simp at hmem
  · intro env vmap branch prOpt hcb hcm hpu hcp hupd hfix hne
    rcases hcoll : collectAggregatedFixes env vmap with ⟨fixed, err0, effs0⟩
    rw [hcoll] at hfix hne
    dsimp only at hfix hne
    have hempty : fixed.isEmpty = false := by
      rcases fixed with _ | ⟨a, b⟩
      · exact absurd rfl hfix
      · rfl
    rcases prOpt with _ | pr
    · have hopen : openAggregatedPullRequest env branch none =
          (none, [.commitAll, .push true branch, .createPullRequest branch]) := by
        unfold openAggregatedPullRequest
        rw [hcm, hpu]
        try dsimp only
        rw [hcp]
      unfold aggregateFixAndOpenPullRequest
      rw [hcb, hcoll]
      try dsimp only
      rw [hempty]
      try dsimp only
      rw [hopen]
      rcases hcko : env.checkoutErr env.baseBranch with _ | ce <;>
        exact ⟨by simp [isUpdateRequired], fun _ => by simp [isUpdateRequired],
          fun pr hpr => Option.noConfusion hpr⟩
    · have hup : isUpdateRequired fixed (some pr) = true := by
        simp only [isUpdateRequired, decide_eq_true_eq]
        intro hcontra
        exact hne pr rfl hcontra.symm
      have hopen : openAggregatedPullRequest env branch (some pr) =
          (none, [.commitAll, .push true branch, .updatePullRequest pr.prId]) := by
        unfold openAggregatedPullRequest
        rw [hcm, hpu]
        try dsimp only
        rw [hupd pr.prId]
      unfold aggregateFixAndOpenPullRequest
      rw [hcb, hcoll]
      try dsimp only
      rw [hup]
      try dsimp only
      rw [hempty]
      try dsimp only
      rw [hopen]
      rcases hcko : env.checkoutErr env.baseBranch with _ | ce
      · refine ⟨by simp, And.intro (fun hcontra => Option.noConfusion hcontra)
          (fun pr2 hpr => ?_)⟩
        injection hpr with hpr2
        subst hpr2
        simp
      · refine ⟨by simp, And.intro (fun hcontra => Option.noConfusion hcontra)
          (fun pr2 hpr => ?_)⟩
        injection hpr with hpr2
        subst hpr2
        simp
  · intro body rows hnone
    simp only [getRemoteBranchScanHash, hnone, Option.getD_none]
    intro hcontra
    exact md5Hex_ne_nil _ hcontra.symm

/-- An existing aggregated pull request whose body carries the checksum
of the empty fixed set. -/
def prInSync : PullRequestInfo :=
  { prId := 3,
    body := str ("intro ") ++ checksumMarker ++ VulnerabilityDetailsToMD5Hash [] ++
      str (" outro"),
    sourceName := str ("b"), targetName := str ("main") }

/-- C5 witness: with an out-of-sync (markerless) body and one
successfully fixed package the branch is force-pushed and a pull request
created, while an in-sync body leads to no push — both through the
theorem. -/
theorem C5_aggregated_create_or_update_witness :
    GitEffect.push true (str ("agg")) ∈
      (aggregateFixAndOpenPullRequest envSeven [(str ("."), [vdSeven ("one")])]
        (str ("agg")) none).2 ∧
    GitEffect.createPullRequest (str ("agg")) ∈
      (aggregateFixAndOpenPullRequest envSeven [(str ("."), [vdSeven ("one")])]
        (str ("agg")) none).2 ∧
    GitEffect.push true (str ("b")) ∉
      (aggregateFixAndOpenPullRequest envSeven [] (str ("b")) (some prInSync)).2 :=
  ⟨(C5_aggregated_create_or_update.2.1 envSeven [(str ("."), [vdSeven ("one")])]
      (str ("agg")) none rfl rfl rfl rfl (fun _ => rfl) (by decide)
      (fun pr hpr => Option.noConfusion hpr)).1,
    (C5_aggregated_create_or_update.2.1 envSeven [(str ("."), [vdSeven ("one")])]
      (str ("agg")) none rfl rfl rfl rfl (fun _ => rfl) (by decide)
      (fun pr hpr => Option.noConfusion hpr)).2.1 rfl,
    fun hmem => absurd
      (C5_aggregated_create_or_update.1 envSeven [] (str ("b")) prInSync (by decide) _ hmem)
      (by decide)⟩

/-- The existing aggregated pull request of the C5 counterexample: no
checksum marker in the body. -/
def prStale : PullRequestInfo :=
  { prId := 7, body := str ("random body"),
    sourceName := str ("agg"), targetName := str ("main") }

/-- C5 counterexample: the claim as stated — checksums differ (here: no
marker found), hence a force-push and a pull-request update — fails when
the successfully fixed set is empty: the update is deemed required, yet
nothing is pushed or updated because `openAggregatedPullRequest` is
guarded by a nonempty fixed set. -/
theorem C5_counterexample_empty_fixed_set :
    (collectAggregatedFixes envSeven []).1 = [] ∧
    isUpdateRequired [] (some prStale) = true ∧
    ((aggregateFixAndOpenPullRequest envSeven [] (str ("agg")) (some prStale)).2.all
      (fun e => !(isPushOrPrEffect e))) = true := by
  exact ⟨by decide, by decide, by decide⟩

end Frogbot
